import Mathlib

/-!
# Verification of the Image-Compression component

A shallow embedding, in Lean 4, of the logic of the `ImageCompressor`
React component (the only source file with logic in the repository).
The embedded pieces are:

* the resize computation inside `compressImage` (the `maxWidth`/`maxHeight`
  capping with `Math.round` of the proportionally scaled dimension);
* the construction of the `CompressedImage` result record, including the
  `compressedSize` estimate `Math.round(dataUrl.length * 3 / 4)`;
* the reduction-percentage display expression
  `Math.round((1 - compressedSize / originalSize) * 100)`;
* `handleDownload` (the link `href` and `download` attributes);
* `handleFileChange` with the promise returned by `compressImage`
  modelled explicitly: the promise executor only ever calls `resolve`
  (inside `img.onload`), registers no `onerror` handler and never calls
  `reject`, so a decode failure leaves the promise pending forever.

JavaScript numbers are modelled by exact rational arithmetic; the inputs
in question (pixel dimensions, string lengths, byte counts) are small
integers for which IEEE-754 doubles are exact, and `Math.round` is the
round-half-up function `fun q => ⌊q + 1/2⌋` (also on half-integers,
where JavaScript rounds toward positive infinity).
-/

/-- JavaScript's `Math.round` on exactly-represented rationals:
round half up, i.e. `⌊q + 1/2⌋`. -/
def jsRound (q : ℚ) : ℤ := ⌊q + 1/2⌋

/-- `const maxWidth = 1200;` in `compressImage`. -/
def maxWidth : ℕ := 1200

/-- `const maxHeight = 1200;` in `compressImage`. -/
def maxHeight : ℕ := 1200

/-- The dimension computation of `compressImage`:

```js
let width = img.width; let height = img.height;
if (width > height) {
  if (width > maxWidth) {
    height = Math.round((height * maxWidth) / width);
    width = maxWidth;
  }
} else {
  if (height > maxHeight) {
    width = Math.round((width * maxHeight) / height);
    height = maxHeight;
  }
}
```

returning the final `(width, height)` pair. -/
def resize (w h : ℕ) : ℕ × ℕ :=
  if h < w then
    if maxWidth < w then
      (maxWidth, (jsRound (((h * maxWidth : ℕ) : ℚ) / (w : ℚ))).toNat)
    else (w, h)
  else
    if maxHeight < h then
      ((jsRound (((w * maxHeight : ℕ) : ℚ) / (h : ℚ))).toNat, maxHeight)
    else (w, h)

/-- The input file: the fields of the DOM `File` object that
`compressImage` reads (`file.size`, `file.name`). -/
structure File where
  size : ℕ
  name : String

/-- The `CompressedImage` interface of the source. -/
structure CompressedImage where
  originalSize : ℕ
  compressedSize : ℕ
  compressedDataUrl : String
  name : String

/-- The record passed to `resolve` in `compressImage`, given the data URI
string produced by `canvas.toDataURL('image/jpeg', 0.7)`:

```js
resolve({
  originalSize: file.size,
  compressedSize: Math.round((compressedDataUrl.length * 3) / 4),
  compressedDataUrl,
  name: file.name
});
``` -/
def mkCompressed (file : File) (compressedDataUrl : String) : CompressedImage :=
  { originalSize := file.size
    compressedSize := (jsRound (((compressedDataUrl.length * 3 : ℕ) : ℚ) / 4)).toNat
    compressedDataUrl := compressedDataUrl
    name := file.name }

/-- The settled state a JavaScript promise can reach: resolved with a
value, rejected (observable by `catch`/`await`-in-`try`), or pending
forever (never settles). -/
inductive PromiseOutcome (α : Type) where
  | resolved (a : α)
  | rejected
  | pending
deriving DecidableEq

/-- What the asynchronous decode of the selected file does: `ok w h`
means `img.onload` fires with `img.width = w`, `img.height = h`;
`failed` means the image fails to decode, so `img.onload` never fires. -/
inductive DecodeOutcome where
  | ok (width height : ℕ)
  | failed
deriving DecidableEq

/-- `compressImage` as a function of the decode outcome and of the
platform encoder `encode` (the opaque `canvas.toDataURL('image/jpeg', 0.7)`
viewed as a function of the canvas dimensions). The promise executor
calls `resolve` only inside `img.onload` and never calls `reject`, and
no `img.onerror` handler is registered: on decode failure the promise
stays pending forever. -/
def compressImage (encode : ℕ → ℕ → String) (file : File)
    (o : DecodeOutcome) : PromiseOutcome CompressedImage :=
  match o with
  | .ok w h => .resolved (mkCompressed file (encode (resize w h).1 (resize w h).2))
  | .failed => .pending

/-- The component state touched by `handleFileChange`:
`image` (`useState<CompressedImage | null>`) and `loading`. -/
structure UIState where
  image : Option CompressedImage
  loading : Bool

/-- `handleFileChange`:

```js
const file = event.target.files?.[0];
if (!file) return;
setLoading(true);
try {
  const compressed = await compressImage(file);
  setImage(compressed);
} catch (error) { console.error('Error compressing image:', error); }
setLoading(false);
```

The returned Bool records whether the `catch` branch ran (the only error
surfacing the handler has). A pending `compressImage` promise means the
`await` never resumes: `setImage` is never called and the code after the
`try` never executes, so the state observed from then on keeps the prior
`image` and the `loading := true` set before the `await`. -/
def handleFileChange (encode : ℕ → ℕ → String) (st : UIState)
    (file : Option File) (o : DecodeOutcome) : UIState × Bool :=
  match file with
  | none => (st, false)
  | some f =>
      match compressImage encode f o with
      | .resolved img => ({ image := some img, loading := false }, false)
      | .rejected => ({ st with loading := false }, true)
      | .pending => ({ st with loading := true }, false)

/-- `handleDownload`: with no result it returns without acting; otherwise
it creates a link with `href = image.compressedDataUrl` and
`download = ` the template string `compressed-` followed by `image.name`,
and clicks it. The model returns the `(href, download)` pair of the
clicked link, or `none` when nothing happens. -/
def handleDownload (image : Option CompressedImage) : Option (String × String) :=
  match image with
  | none => none
  | some img => some (img.compressedDataUrl, "compressed-" ++ img.name)

/-- The reduction figure rendered in the summary:
`Math.round((1 - image.compressedSize / image.originalSize) * 100)`.
The expression is applied unguarded for every result, `originalSize = 0`
included (rational division is total with `x / 0 = 0` in this model;
the source would produce the host's float semantics there). -/
def reductionPercent (img : CompressedImage) : ℤ :=
  jsRound ((1 - (img.compressedSize : ℚ) / (img.originalSize : ℚ)) * 100)

/-! ## Helper lemmas about `jsRound` -/

lemma jsRound_natCast (n : ℕ) : jsRound (n : ℚ) = n := by
  unfold jsRound
  rw [Int.floor_eq_iff]
  constructor
  · push_cast; linarith
  · push_cast; linarith

lemma jsRound_nonneg {q : ℚ} (hq : 0 ≤ q) : 0 ≤ jsRound q := by
  unfold jsRound
  exact Int.floor_nonneg.mpr (by linarith)

lemma abs_jsRound_sub_le (q : ℚ) : |(jsRound q : ℚ) - q| ≤ 1/2 := by
  unfold jsRound
  have h1 : ((⌊q + 1/2⌋ : ℤ) : ℚ) ≤ q + 1/2 := Int.floor_le _
  have h2 : q + 1/2 - 1 < ((⌊q + 1/2⌋ : ℤ) : ℚ) := Int.sub_one_lt_floor _
  rw [abs_le]
  constructor <;> linarith

/-- The scaled dimension `Math.round(a * 1200 / b)` never exceeds 1200
when `a ≤ b` (and `0 < b`). -/
lemma jsRound_scale_le (a b : ℕ) (hb : 0 < b) (hab : a ≤ b) :
    (jsRound (((a * 1200 : ℕ) : ℚ) / (b : ℚ))).toNat ≤ 1200 := by
  have hbq : (0 : ℚ) < b := by exact_mod_cast hb
  have habq : (a : ℚ) ≤ (b : ℚ) := by exact_mod_cast hab
  have hq : ((a * 1200 : ℕ) : ℚ) / (b : ℚ) ≤ 1200 := by
    rw [div_le_iff₀ hbq]
    push_cast
    linarith
  rw [Int.toNat_le]
  calc jsRound (((a * 1200 : ℕ) : ℚ) / (b : ℚ))
      ≤ jsRound (((1200 : ℕ) : ℚ)) := by
        unfold jsRound
        exact Int.floor_le_floor (by push_cast at hq ⊢; linarith)
    _ = 1200 := jsRound_natCast 1200

/-- The rounded scaled dimension `Math.round(a * 1200 / b)` is within
`b / 2` of the exact proportional value, after cross-multiplying by `b`. -/
lemma jsRound_scale_err (a b : ℕ) (hb : 0 < b) :
    |((jsRound (((a * 1200 : ℕ) : ℚ) / (b : ℚ))).toNat : ℚ) * (b : ℚ)
      - (a : ℚ) * 1200| ≤ (b : ℚ) / 2 := by
  set q : ℚ := ((a * 1200 : ℕ) : ℚ) / (b : ℚ) with hqdef
  have hbq : (0 : ℚ) < b := by exact_mod_cast hb
  have hq0 : (0 : ℚ) ≤ q := by rw [hqdef]; positivity
  have hcast : (((jsRound q).toNat : ℚ)) = ((jsRound q : ℤ) : ℚ) := by
    exact_mod_cast Int.toNat_of_nonneg (jsRound_nonneg hq0)
  have hqb : q * (b : ℚ) = (a : ℚ) * 1200 := by
    rw [hqdef]; push_cast; field_simp
  have hfactor : ((jsRound q : ℤ) : ℚ) * (b : ℚ) - (a : ℚ) * 1200
      = ((jsRound q : ℚ) - q) * (b : ℚ) := by
    rw [sub_mul, hqb]
  rw [hcast, hfactor, abs_mul, abs_of_pos hbq]
  have habs := abs_jsRound_sub_le q
  calc |(jsRound q : ℚ) - q| * (b : ℚ)
      ≤ (1/2) * (b : ℚ) := mul_le_mul_of_nonneg_right habs (le_of_lt hbq)
    _ = (b : ℚ) / 2 := by ring

/-! ## The claims -/

/-- C1: for every source dimension pair with `W > 1200` and `W ≥ H`, the
resize computation returns `W' = 1200` and `H' = round(H * 1200 / W)`.
The code branches on strict `width > height`; the square case `W = H > 1200`
goes through the other branch and yields the same pair `(1200, 1200)`. -/
theorem resize_wide (w h : ℕ) (hw : 1200 < w) (hhw : h ≤ w) :
    resize w h = (1200, (jsRound (((h * 1200 : ℕ) : ℚ) / (w : ℚ))).toNat) := by
  rcases lt_or_eq_of_le hhw with hlt | heq
  · unfold resize maxWidth maxHeight
    rw [if_pos hlt, if_pos hw]
  · subst heq
    have hdiv : ((h * 1200 : ℕ) : ℚ) / (h : ℚ) = ((1200 : ℕ) : ℚ) := by
      have h0 : (h : ℚ) ≠ 0 := Nat.cast_ne_zero.mpr (by omega)
      push_cast
      field_simp
    have hr : (jsRound (((h * 1200 : ℕ) : ℚ) / (h : ℚ))).toNat = 1200 := by
      rw [hdiv, jsRound_natCast]
      rfl
    unfold resize maxWidth maxHeight
    rw [if_neg (lt_irrefl h), if_pos hw, hr]

/-- Witness for C1 at the spec's concrete case: source 2400 × 1200 maps
to 1200 × 600. -/
theorem resize_wide_witness :
    resize 2400 1200
        = (1200, (jsRound (((1200 * 1200 : ℕ) : ℚ) / (2400 : ℚ))).toNat)
    ∧ (jsRound (((1200 * 1200 : ℕ) : ℚ) / (2400 : ℚ))).toNat = 600 := by
  refine ⟨resize_wide 2400 1200 (by norm_num) (by norm_num), ?_⟩
  have : ((1200 * 1200 : ℕ) : ℚ) / (2400 : ℚ) = ((600 : ℕ) : ℚ) := by norm_num
  rw [this, jsRound_natCast]
  rfl

/-- C2: for every source dimension pair with `H > 1200` and `H > W`, the
resize computation returns `H' = 1200` and `W' = round(W * 1200 / H)`. -/
theorem resize_tall (w h : ℕ) (hh : 1200 < h) (hwh : w < h) :
    resize w h = ((jsRound (((w * 1200 : ℕ) : ℚ) / (h : ℚ))).toNat, 1200) := by
  unfold resize maxWidth maxHeight
  rw [if_neg (by omega), if_pos hh]

/-- Witness for C2 at the spec's concrete case: source 800 × 2400 maps
to 400 × 1200. -/
theorem resize_tall_witness :
    resize 800 2400
        = ((jsRound (((800 * 1200 : ℕ) : ℚ) / (2400 : ℚ))).toNat, 1200)
    ∧ (jsRound (((800 * 1200 : ℕ) : ℚ) / (2400 : ℚ))).toNat = 400 := by
  refine ⟨resize_tall 800 2400 (by norm_num) (by norm_num), ?_⟩
  have : ((800 * 1200 : ℕ) : ℚ) / (2400 : ℚ) = ((400 : ℕ) : ℚ) := by norm_num
  rw [this, jsRound_natCast]
  rfl

/-- C3: for positive dimensions both at most 1200, the resize computation
is the identity: no upscaling ever occurs. -/
theorem resize_noop (w h : ℕ) (hw : 0 < w) (hh : 0 < h)
    (hw' : w ≤ 1200) (hh' : h ≤ 1200) : resize w h = (w, h) := by
  unfold resize maxWidth maxHeight
  split
  · rw [if_neg (by omega)]
  · rw [if_neg (by omega)]

/-- Witness for C3 at the spec's concrete case: source 600 × 400 is
unchanged. -/
theorem resize_noop_witness : resize 600 400 = (600, 400) :=
  resize_noop 600 400 (by norm_num) (by norm_num) (by norm_num) (by norm_num)

/-- C5: for every positive source dimension pair, both output dimensions
are at most 1200: in the branch taken, the uncapped dimension is bounded
because the other dimension is at least as large. -/
theorem resize_le_caps (w h : ℕ) (hw : 0 < w) (hh : 0 < h) :
    (resize w h).1 ≤ 1200 ∧ (resize w h).2 ≤ 1200 := by
  unfold resize maxWidth maxHeight
  split
  case isTrue hlt =>
    split
    case isTrue hw' =>
      exact ⟨le_refl 1200, jsRound_scale_le h w (by omega) (by omega)⟩
    case isFalse hw' => exact ⟨by omega, by omega⟩
  case isFalse hlt =>
    split
    case isTrue hh' =>
      exact ⟨jsRound_scale_le w h (by omega) (by omega), le_refl 1200⟩
    case isFalse hh' => exact ⟨by omega, by omega⟩

/-- Witness for C5 at a tall, narrow source: 300 × 4800. -/
theorem resize_le_caps_witness :
    (resize 300 4800).1 ≤ 1200 ∧ (resize 300 4800).2 ≤ 1200 :=
  resize_le_caps 300 4800 (by norm_num) (by norm_num)

/-- C4: the resize computation preserves the aspect ratio within ±1 px
on the rounded dimension. Cross-multiplied form: `|H'·W − H·W'| ≤ max W H`,
which per branch says the rounded dimension differs from the exact
proportional value by at most 1 (in fact at most 1/2) pixel. -/
theorem resize_aspect (w h : ℕ) (hw : 0 < w) (hh : 0 < h) :
    |((resize w h).2 : ℚ) * (w : ℚ) - (h : ℚ) * ((resize w h).1 : ℚ)|
      ≤ ((max w h : ℕ) : ℚ) := by
  unfold resize maxWidth maxHeight
  split
  case isTrue hlt =>
    split
    case isTrue hw' =>
      dsimp only
      have herr := jsRound_scale_err h w (by omega)
      have hmaxw : (w : ℚ) ≤ ((max w h : ℕ) : ℚ) := by
        exact_mod_cast Nat.le_max_left w h
      have hwq : (0 : ℚ) < w := by exact_mod_cast hw
      have hle : (w : ℚ) ≤ (w : ℚ) ⊔ (h : ℚ) := le_sup_left
      push_cast at herr ⊢
      linarith
    case isFalse hw' =>
      dsimp only
      rw [sub_self, abs_zero]
      positivity
  case isFalse hlt =>
    split
    case isTrue hh' =>
      dsimp only
      have herr := jsRound_scale_err w h (by omega)
      have hmaxh : (h : ℚ) ≤ ((max w h : ℕ) : ℚ) := by
        exact_mod_cast Nat.le_max_right w h
      have hhq : (0 : ℚ) < h := by exact_mod_cast hh
      have hneg : ((1200 : ℕ) : ℚ) * (w : ℚ)
          - (h : ℚ) * (((jsRound (((w * 1200 : ℕ) : ℚ) / (h : ℚ))).toNat : ℕ) : ℚ)
          = -((((jsRound (((w * 1200 : ℕ) : ℚ) / (h : ℚ))).toNat : ℕ) : ℚ) * (h : ℚ)
              - (w : ℚ) * 1200) := by
        push_cast
        ring
      rw [hneg, abs_neg]
      linarith
    case isFalse hh' =>
      dsimp only
      rw [sub_self, abs_zero]
      positivity

/-- Witness for C4 at source 2400 × 1000 (output width 1200, height
round(1000·1200/2400) = 500; error 0 ≤ 2400). -/
theorem resize_aspect_witness :
    |((resize 2400 1000).2 : ℚ) * (2400 : ℚ)
        - (1000 : ℚ) * ((resize 2400 1000).1 : ℚ)|
      ≤ ((max 2400 1000 : ℕ) : ℚ) :=
  resize_aspect 2400 1000 (by norm_num) (by norm_num)

/-- C6: for every successful compression the stored `compressedSize`
equals `round(L * 3 / 4)` where `L` is the character length of the
encoded data URI (an estimate, not the exact byte count); equivalently
it is the natural number `(3L + 2) / 4`. -/
theorem compressedSize_estimate (file : File) (url : String) :
    ((mkCompressed file url).compressedSize : ℤ)
        = jsRound (((url.length * 3 : ℕ) : ℚ) / 4)
    ∧ (mkCompressed file url).compressedSize = (3 * url.length + 2) / 4 := by
  have hq0 : (0 : ℚ) ≤ ((url.length * 3 : ℕ) : ℚ) / 4 := by positivity
  constructor
  · simp only [mkCompressed]
    exact Int.toNat_of_nonneg (jsRound_nonneg hq0)
  · simp only [mkCompressed]
    unfold jsRound
    have harg : ((url.length * 3 : ℕ) : ℚ) / 4 + 1/2
        = ((3 * url.length + 2 : ℕ) : ℚ) / ((4 : ℕ) : ℚ) := by
      push_cast
      ring
    rw [harg, Int.floor_toNat, Nat.floor_div_eq_div]

/-- C7: the displayed reduction percentage is
`round((1 − compressedSize/originalSize) · 100)` for every result with
positive `originalSize`; the expression is applied unguarded at
`originalSize = 0` as well (no branch exists); at
`originalSize = 1000000`, `compressedSize = 250000` it is 75. -/
theorem reduction_percent_spec (img : CompressedImage) :
    (0 < img.originalSize →
      reductionPercent img
        = jsRound ((1 - (img.compressedSize : ℚ) / (img.originalSize : ℚ)) * 100))
    ∧ (img.originalSize = 0 →
      reductionPercent img
        = jsRound ((1 - (img.compressedSize : ℚ) / (img.originalSize : ℚ)) * 100))
    ∧ (img.originalSize = 1000000 → img.compressedSize = 250000 →
      reductionPercent img = 75) := by
  refine ⟨fun _ => rfl, fun _ => rfl, fun h1 h2 => ?_⟩
  unfold reductionPercent
  rw [h1, h2]
  have hval : ((1 : ℚ) - ((250000 : ℕ) : ℚ) / ((1000000 : ℕ) : ℚ)) * 100
      = ((75 : ℕ) : ℚ) := by norm_num
  rw [hval, jsRound_natCast]
  rfl

/-- Witness for C7 at the spec's concrete case. -/
theorem reduction_percent_spec_witness :
    reductionPercent ⟨1000000, 250000, "", ""⟩ = 75 :=
  (reduction_percent_spec ⟨1000000, 250000, "", ""⟩).2.2 rfl rfl

/-- C8: every resolved compression carries the input file's byte length
as `originalSize` and its name unchanged, and the download link's file
name is exactly `compressed-` followed by the original name (extension
untouched). -/
theorem compress_result_fields (encode : ℕ → ℕ → String) (file : File)
    (w h : ℕ) (img : CompressedImage)
    (hres : compressImage encode file (.ok w h) = .resolved img) :
    img.originalSize = file.size ∧ img.name = file.name
    ∧ handleDownload (some img)
        = some (img.compressedDataUrl, "compressed-" ++ file.name) := by
  simp only [compressImage] at hres
  injection hres with himg
  subst himg
  exact ⟨rfl, rfl, rfl⟩

/-- Witness for C8 with file `photo.png` of 5 bytes and a constant
encoder. -/
theorem compress_result_fields_witness :
    ((mkCompressed ⟨5, "photo.png"⟩ "data").originalSize = 5
      ∧ (mkCompressed ⟨5, "photo.png"⟩ "data").name = "photo.png"
      ∧ handleDownload (some (mkCompressed ⟨5, "photo.png"⟩ "data"))
          = some ((mkCompressed ⟨5, "photo.png"⟩ "data").compressedDataUrl,
              "compressed-" ++ "photo.png"))
    ∧ "compressed-" ++ "photo.png" = "compressed-photo.png" :=
  ⟨compress_result_fields (fun _ _ => "data") ⟨5, "photo.png"⟩ 10 10
      (mkCompressed ⟨5, "photo.png"⟩ "data") rfl, rfl⟩

/-- C9: on a decode failure the promise stays pending: the handler never
resolves to a result (the stored result stays whatever it was), the
`catch` branch never runs (no error surfaced, no crash), and
`compressImage` settles to no value. -/
theorem decode_failure_pending (encode : ℕ → ℕ → String) (st : UIState)
    (f : File) :
    compressImage encode f .failed = .pending
    ∧ (handleFileChange encode st (some f) .failed).1.image = st.image
    ∧ (handleFileChange encode st (some f) .failed).2 = false :=
  ⟨rfl, rfl, rfl⟩

/-- C10: with no file selected the handler returns immediately: the
whole state (stored result and loading flag) is unchanged and no error
is logged. -/
theorem no_file_noop (encode : ℕ → ℕ → String) (st : UIState)
    (o : DecodeOutcome) :
    (handleFileChange encode st none o).1 = st
    ∧ (handleFileChange encode st none o).1.loading = st.loading
    ∧ (handleFileChange encode st none o).2 = false :=
  ⟨rfl, rfl, rfl⟩
